import Mathlib

/-!
Verification of the SYCL reduction work-group-size planner
(`sycl/source/reduction.cpp` in the repository).

The planner is a handful of pure integer heuristics over device-capability
queries.  We embed each function as a Lean definition over `Nat` (the C++
code computes on `size_t` / `uint32_t`; all values involved are far below
any overflow threshold in the paths the spec talks about, and where the
code relies on unsigned wraparound -- `N & (N - 1)` at `N = 0` -- the `Nat`
truncated subtraction gives the same answer, as noted at the definition).

Device and configuration state reached through `queue_impl` / `device` /
`SYCLConfig` queries is modelled as explicit records of the queried values;
a possibly-null queue is an `Option Device`.
-/

set_option linter.unusedVariables false

namespace ReduPlanner

/-- Device-capability queries used by the planner, gathered in one record:
`max_work_group_size`, `local_mem_size`, whether the backend is
`ext_oneapi_cuda`, `max_registers_per_work_group`, the device class
predicates `is_cpu` / `is_gpu` / `is_accelerator`, `max_compute_units`,
and `host_unified_memory`. -/
structure Device where
  maxWGSize : Nat
  localMemSize : Nat
  isCuda : Bool
  maxRegsPerWG : Nat
  isCpu : Bool
  isGpu : Bool
  isAccelerator : Bool
  maxComputeUnits : Nat
  hostUnifiedMemory : Bool
deriving DecidableEq, Repr

/-- The `SYCL_REDUCTION_PREFERRED_WORKGROUP_SIZE` configuration values per
device class (`SYCLConfig::get(device_type)`); `0` means "not set". -/
structure Config where
  cpuPref : Nat
  gpuPref : Nat
  accPref : Nat
deriving DecidableEq, Repr

/-- `reduComputeWGSize(NWorkItems, MaxWGSize, &NWorkGroups)`: returns the
pair `(WGSize, NWorkGroups)`. -/
def reduComputeWGSize (NWorkItems MaxWGSize : Nat) : Nat × Nat :=
  if NWorkItems ≤ MaxWGSize then
    (NWorkItems, 1)
  else
    let NWorkGroups := NWorkItems / MaxWGSize
    let Rem := NWorkItems % MaxWGSize
    if Rem ≠ 0 then
      let NWorkGroupsAlt := NWorkItems / Rem
      let RemAlt := NWorkItems % Rem
      if RemAlt = 0 ∧ NWorkGroupsAlt ≤ MaxWGSize then
        (Rem, NWorkGroupsAlt)
      else
        (MaxWGSize, NWorkGroups + 1)
    else
      (MaxWGSize, NWorkGroups)

/-- `IsPowerOfTwo(N)`: the source's bit test `(N & (N - 1)) == 0`.
At `N = 0` the C++ computes `0 & SIZE_MAX = 0` (true); here `0 - 1 = 0`
in `Nat` and `0 &&& 0 = 0` (true) -- the two agree on every input. -/
def IsPowerOfTwo (N : Nat) : Bool :=
  N &&& (N - 1) == 0

/-- Lines 123-129 of `reduGetMaxWGSize`: the memory-bound candidate
`MemSize / LocalMemBytesPerWorkItem`, decremented by `1` when the inline
bit test `(WGSizePerMem & (WGSizePerMem - 1)) != 0` says it is not a
power of two. -/
def WGSizePerMemAdjusted (MemSize LocalMemBytesPerWorkItem : Nat) : Nat :=
  let WGSizePerMem := MemSize / LocalMemBytesPerWorkItem
  if WGSizePerMem &&& (WGSizePerMem - 1) ≠ 0 then WGSizePerMem - 1
  else WGSizePerMem

/-- The loop condition of the conservative register workaround:
`NewWGSize * MaxRegsPerWI > MaxRegsPerWG || !IsPowerOfTwo(NewWGSize)`,
with `MaxRegsPerWI = 255`. -/
def regClampCond (MaxRegsPerWG N : Nat) : Bool :=
  decide (N * 255 > MaxRegsPerWG) || !(IsPowerOfTwo N)

/-- The `while (...) NewWGSize--;` loop of the register workaround, as a
structurally recursive function: the candidate strictly decreases each
iteration, and the condition is false at `0`. -/
def regClampLoop (MaxRegsPerWG : Nat) : Nat → Nat
  | 0 => 0
  | N + 1 =>
    if regClampCond MaxRegsPerWG (N + 1) then regClampLoop MaxRegsPerWG N
    else N + 1

/-- The same loop with an explicit fuel budget, `none` when the fuel runs
out before the loop condition turns false.  Used to state termination of
the while loop. -/
def regClampLoopFuel (MaxRegsPerWG : Nat) : Nat → Nat → Option Nat
  | 0, N => if regClampCond MaxRegsPerWG N then none else some N
  | fuel + 1, N =>
    if regClampCond MaxRegsPerWG N then regClampLoopFuel MaxRegsPerWG fuel (N - 1)
    else some N

/-- `reduGetMaxWGSize(Queue, LocalMemBytesPerWorkItem)` (the device-query
overload).  The register workaround computes `NewWGSize`, but the function
returns `WGSize`. -/
def reduGetMaxWGSize (Dev : Device) (LocalMemBytesPerWorkItem : Nat) : Nat :=
  let MaxWGSize := Dev.maxWGSize
  let WGSizePerMem0 := MaxWGSize * 2
  let WGSize0 := MaxWGSize
  let p :=
    if LocalMemBytesPerWorkItem ≠ 0 then
      let W := WGSizePerMemAdjusted Dev.localMemSize LocalMemBytesPerWorkItem
      (W, min W WGSize0)
    else
      (WGSizePerMem0, WGSize0)
  let WGSizePerMem := p.1
  let WGSize1 := p.2
  let WGSize :=
    if 4 ≤ WGSize1 ∧ WGSizePerMem < MaxWGSize * 2 then WGSize1 / 2 else WGSize1
  let NewWGSize :=
    if Dev.isCuda then regClampLoop Dev.maxRegsPerWG WGSize else WGSize
  WGSize

/-- `reduGetMaxNumConcurrentWorkGroups(Queue)`: `8` for a null queue,
otherwise `max_compute_units`, multiplied by `8` (as a `uint32_t`) for a
GPU with host-unified memory. -/
def reduGetMaxNumConcurrentWorkGroups (Queue : Option Device) : Nat :=
  match Queue with
  | none => 8
  | some Dev =>
    let NumThreads := Dev.maxComputeUnits
    if Dev.isGpu && Dev.hostUnifiedMemory then (NumThreads * 8) % 2 ^ 32
    else NumThreads

/-- `reduGetPreferredWGSize(Queue, LocalMemBytesPerWorkItem)`: `32` for a
null queue; on CPU `16` unless the configuration sets a preferred size, in
which case `min(pref, device max)`; on GPU / accelerator with a configured
preference `min(pref, device max)`; otherwise `reduGetMaxWGSize`. -/
def reduGetPreferredWGSize (Cfg : Config) (Queue : Option Device)
    (LocalMemBytesPerWorkItem : Nat) : Nat :=
  match Queue with
  | none => 32
  | some Dev =>
    if Dev.isCpu then
      let CPUMaxWGSize := Cfg.cpuPref
      if CPUMaxWGSize = 0 then 16
      else min CPUMaxWGSize Dev.maxWGSize
    else if Dev.isGpu && Cfg.gpuPref ≠ 0 then
      min Cfg.gpuPref Dev.maxWGSize
    else if Dev.isAccelerator && Cfg.accPref ≠ 0 then
      min Cfg.accPref Dev.maxWGSize
    else
      reduGetMaxWGSize Dev LocalMemBytesPerWorkItem

/-- A concrete device used to instantiate hypotheses at concrete inputs:
`max_work_group_size = 1024`, `local_mem_size = 48`, non-CUDA backend. -/
def devMem48 : Device :=
  ⟨1024, 48, false, 0, false, false, false, 1, false⟩

/-- Bit-level doubling identity behind the power-of-two test: an even
number shares no set bit with an odd number in position `0`, and the
higher positions are those of the halves. -/
lemma land_two_mul_two_mul_add_one (M N : Nat) :
    (2 * M) &&& (2 * N + 1) = 2 * (M &&& N) := by
  apply Nat.eq_of_testBit_eq
  intro i
  cases i with
  | zero =>
    have e1 : 2 * M % 2 = 0 := by omega
    have e3 : 2 * (M &&& N) % 2 = 0 := by omega
    simp [Nat.testBit_and, Nat.testBit_zero, e1, e3]
  | succ i =>
    have e1 : 2 * M / 2 = M := by omega
    have e2 : (2 * N + 1) / 2 = N := by omega
    have e3 : 2 * (M &&& N) / 2 = M &&& N := by omega
    rw [Nat.testBit_and, Nat.testBit_add_one, Nat.testBit_add_one,
      Nat.testBit_add_one, e1, e2, e3, Nat.testBit_and]

/-- Correctness of the source's power-of-two bit test on positive inputs:
`N & (N - 1) == 0` holds exactly when `N` is a power of two. -/
lemma land_pred_eq_zero_iff : ∀ N, 0 < N →
    ((N &&& (N - 1)) = 0 ↔ ∃ k, N = 2 ^ k) := by
  intro N
  induction N using Nat.strong_induction_on with
  | _ N ih =>
    intro hN
    rcases Nat.even_or_odd N with he | ho
    · obtain ⟨M, hM⟩ := he
      have hM2 : N = 2 * M := by omega
      subst hM2
      have hMpos : 0 < M := by omega
      have hpred : 2 * M - 1 = 2 * (M - 1) + 1 := by omega
      rw [hpred, land_two_mul_two_mul_add_one]
      constructor
      · intro h
        have h0 : M &&& (M - 1) = 0 := by omega
        obtain ⟨k, hk⟩ := (ih M (by omega) hMpos).mp h0
        exact ⟨k + 1, by rw [hk]; ring⟩
      · rintro ⟨k, hk⟩
        match k, hk with
        | 0, hk =>
          rw [pow_zero] at hk
          omega
        | k + 1, hk =>
          have hMk : M = 2 ^ k := by
            have h2 : 2 * M = 2 * 2 ^ k := by rw [hk]; ring
            omega
          have h0 : M &&& (M - 1) = 0 := (ih M (by omega) hMpos).mpr ⟨k, hMk⟩
          omega
    · obtain ⟨M, hM⟩ := ho
      subst hM
      rcases Nat.eq_zero_or_pos M with h0 | hMpos
      · subst h0
        constructor
        · intro _
          exact ⟨0, by norm_num⟩
        · intro _
          decide
      · have hpred : 2 * M + 1 - 1 = 2 * M := by omega
        rw [hpred]
        have hland : (2 * M + 1) &&& (2 * M) = 2 * M := by
          rw [Nat.and_comm, land_two_mul_two_mul_add_one, Nat.and_self]
        rw [hland]
        constructor
        · intro h
          exact absurd h (by omega)
        · rintro ⟨k, hk⟩
          match k, hk with
          | 0, hk =>
            rw [pow_zero] at hk
            omega
          | k + 1, hk =>
            have h2 : 2 * M + 1 = 2 * 2 ^ k := by rw [hk]; ring
            have h3 : 0 < 2 ^ k := Nat.pos_pow_of_pos k (by norm_num)
            omega

/-- The register-workaround loop condition is false at a zero candidate:
`0 * 255 > MaxRegsPerWG` fails and `IsPowerOfTwo 0` holds. -/
lemma regClampCond_zero (MaxRegsPerWG : Nat) :
    regClampCond MaxRegsPerWG 0 = false := by
  simp [regClampCond, IsPowerOfTwo]

/-- The fueled register-workaround loop finishes whenever the fuel is at
least the starting candidate, and agrees with the recursive version. -/
lemma regClampLoopFuel_of_le (MaxRegsPerWG : Nat) :
    ∀ fuel N, N ≤ fuel →
      regClampLoopFuel MaxRegsPerWG fuel N =
        some (regClampLoop MaxRegsPerWG N) := by
  intro fuel
  induction fuel with
  | zero =>
    intro N hN
    have h0 : N = 0 := Nat.le_zero.mp hN
    subst h0
    simp [regClampLoopFuel, regClampLoop, regClampCond_zero]
  | succ fuel ih =>
    intro N hN
    cases N with
    | zero => simp [regClampLoopFuel, regClampLoop, regClampCond_zero]
    | succ M =>
      rw [regClampLoopFuel, regClampLoop]
      by_cases h : regClampCond MaxRegsPerWG (M + 1)
      · rw [if_pos h, if_pos h]
        exact ih M (Nat.le_of_succ_le_succ hN)
      · rw [if_neg h, if_neg h]

/-- With no per-work-item local memory requirement, `reduGetMaxWGSize`
returns the device maximum (the memory branch and the conservative
halving are both skipped). -/
lemma getMaxWGSize_localmem_zero (Dev : Device) :
    reduGetMaxWGSize Dev 0 = Dev.maxWGSize := by
  simp [reduGetMaxWGSize]

/-- Shape of `reduGetMaxWGSize` when a local-memory requirement is given:
the adjusted memory bound is combined with the device maximum by `min`,
then possibly halved. -/
lemma reduGetMaxWGSize_pos_localmem (Dev : Device) (L : Nat) (hL : L ≠ 0) :
    reduGetMaxWGSize Dev L =
      if 4 ≤ min (WGSizePerMemAdjusted Dev.localMemSize L) Dev.maxWGSize ∧
         WGSizePerMemAdjusted Dev.localMemSize L < Dev.maxWGSize * 2 then
        min (WGSizePerMemAdjusted Dev.localMemSize L) Dev.maxWGSize / 2
      else min (WGSizePerMemAdjusted Dev.localMemSize L) Dev.maxWGSize := by
  simp [reduGetMaxWGSize, hL]

/-- The adjusted memory-bound candidate stays positive whenever the raw
quotient is positive. -/
lemma WGSizePerMemAdjusted_pos (MemSize L : Nat)
    (h1 : 1 ≤ MemSize / L) :
    1 ≤ WGSizePerMemAdjusted MemSize L := by
  unfold WGSizePerMemAdjusted
  by_cases h : MemSize / L &&& (MemSize / L - 1) ≠ 0
  · rw [if_pos h]
    have h2 : 2 ≤ MemSize / L := by
      by_contra hc
      have he : MemSize / L = 1 := by omega
      rw [he] at h
      exact h (by decide)
    omega
  · rw [if_neg h]
    exact h1

/-- C1: for positive `NWorkItems` and `MaxWGSize`, `reduComputeWGSize`
covers all work items (`WGSize * NWorkGroups >= NWorkItems`), respects the
maximum (`WGSize <= MaxWGSize`) and schedules at least one group. -/
theorem reduComputeWGSize_bounds (NWorkItems MaxWGSize : Nat)
    (hN : 0 < NWorkItems) (hM : 0 < MaxWGSize) :
    NWorkItems ≤ (reduComputeWGSize NWorkItems MaxWGSize).1 *
        (reduComputeWGSize NWorkItems MaxWGSize).2 ∧
    (reduComputeWGSize NWorkItems MaxWGSize).1 ≤ MaxWGSize ∧
    1 ≤ (reduComputeWGSize NWorkItems MaxWGSize).2 := by
  unfold reduComputeWGSize
  by_cases h1 : NWorkItems ≤ MaxWGSize
  · simp [h1]
  · have hlt : MaxWGSize < NWorkItems := Nat.lt_of_not_le h1
    simp only [if_neg h1]
    by_cases h2 : NWorkItems % MaxWGSize ≠ 0
    · by_cases h3 : NWorkItems % (NWorkItems % MaxWGSize) = 0 ∧
          NWorkItems / (NWorkItems % MaxWGSize) ≤ MaxWGSize
      · simp only [if_pos h2, if_pos h3]
        have hdvd : (NWorkItems % MaxWGSize) ∣ NWorkItems :=
          Nat.dvd_of_mod_eq_zero h3.1
        refine ⟨?_, ?_, ?_⟩
        · rw [Nat.mul_div_cancel' hdvd]
        · exact Nat.le_of_lt (Nat.mod_lt _ hM)
        · have hr : 0 < NWorkItems % MaxWGSize := Nat.pos_of_ne_zero h2
          exact (Nat.one_le_div_iff hr).mpr (Nat.mod_le _ _)
      · simp only [if_pos h2, if_neg h3]
        refine ⟨?_, Nat.le_refl _, Nat.le_add_left _ _⟩
        have hdm := Nat.div_add_mod NWorkItems MaxWGSize
        have hml := Nat.mod_lt NWorkItems hM
        rw [Nat.mul_add, Nat.mul_one]
        omega
    · simp only [if_neg h2]
      push_neg at h2
      have hdm := Nat.div_add_mod NWorkItems MaxWGSize
      refine ⟨?_, Nat.le_refl _, ?_⟩
      · omega
      · exact (Nat.one_le_div_iff hM).mpr (Nat.le_of_lt hlt)

/-- Witness for C1 at `NWorkItems = 200`, `MaxWGSize = 64`. -/
theorem reduComputeWGSize_bounds_witness :
    0 < 200 ∧ 0 < 64 ∧
      (200 ≤ (reduComputeWGSize 200 64).1 * (reduComputeWGSize 200 64).2 ∧
       (reduComputeWGSize 200 64).1 ≤ 64 ∧
       1 ≤ (reduComputeWGSize 200 64).2) :=
  ⟨by decide, by decide, reduComputeWGSize_bounds 200 64 (by decide) (by decide)⟩

/-- C2: when `MaxWGSize < NWorkItems` and the remainder `NWorkItems %
MaxWGSize` is nonzero, `reduComputeWGSize` returns the alternative uniform
partition `(Rem, NWorkItems / Rem)` exactly when `NWorkItems % Rem = 0`
and `NWorkItems / Rem <= MaxWGSize`, and otherwise
`(MaxWGSize, NWorkItems / MaxWGSize + 1)`. -/
theorem reduComputeWGSize_alt (NWorkItems MaxWGSize : Nat)
    (h1 : MaxWGSize < NWorkItems) (h2 : NWorkItems % MaxWGSize ≠ 0) :
    reduComputeWGSize NWorkItems MaxWGSize =
      if NWorkItems % (NWorkItems % MaxWGSize) = 0 ∧
         NWorkItems / (NWorkItems % MaxWGSize) ≤ MaxWGSize then
        (NWorkItems % MaxWGSize, NWorkItems / (NWorkItems % MaxWGSize))
      else
        (MaxWGSize, NWorkItems / MaxWGSize + 1) := by
  unfold reduComputeWGSize
  rw [if_neg (Nat.not_le_of_lt h1)]
  simp only [if_pos h2]

/-- Witness for C2: `NWorkItems = 200`, `MaxWGSize = 64` gives `(8, 25)`. -/
theorem reduComputeWGSize_alt_witness :
    (64 < 200 ∧ 200 % 64 ≠ 0) ∧ reduComputeWGSize 200 64 = (8, 25) :=
  ⟨⟨by decide, by decide⟩, by
    rw [reduComputeWGSize_alt 200 64 (by decide) (by decide)]; decide⟩

/-- C5: the value returned by `reduGetMaxWGSize` does not depend on the
backend being CUDA nor on `max_registers_per_work_group`: the register
workaround's clamped candidate `NewWGSize` is computed but never
returned. -/
theorem reduGetMaxWGSize_reg_independent (Dev : Device)
    (LocalMemBytesPerWorkItem : Nat) (c₁ c₂ : Bool) (r₁ r₂ : Nat) :
    reduGetMaxWGSize { Dev with isCuda := c₁, maxRegsPerWG := r₁ }
        LocalMemBytesPerWorkItem =
      reduGetMaxWGSize { Dev with isCuda := c₂, maxRegsPerWG := r₂ }
        LocalMemBytesPerWorkItem := rfl

/-- C7: with `LocalMemBytesPerWorkItem = 0` the memory bound and the
conservative halving are both skipped and `reduGetMaxWGSize` returns the
device's `max_work_group_size` unchanged. -/
theorem reduGetMaxWGSize_no_localmem (Dev : Device) :
    reduGetMaxWGSize Dev 0 = Dev.maxWGSize := by
  simp [reduGetMaxWGSize]

/-- C9: with a null queue the planner does not fail (all embedded
operations are total functions) and returns the documented conservative
defaults: `reduGetPreferredWGSize` gives `32` and
`reduGetMaxNumConcurrentWorkGroups` gives `8`. -/
theorem null_queue_defaults (Cfg : Config) (LocalMemBytesPerWorkItem : Nat) :
    reduGetPreferredWGSize Cfg none LocalMemBytesPerWorkItem = 32 ∧
    reduGetMaxNumConcurrentWorkGroups none = 8 :=
  ⟨rfl, rfl⟩

/-- C3 (counterexample): a device with `max_work_group_size = 1024 > 0`
and no local memory makes `reduGetMaxWGSize` return `0`, violating the
claimed lower bound of `1`. -/
theorem reduGetMaxWGSize_lower_cex :
    0 < (Device.mk 1024 0 false 0 false false false 1 false).maxWGSize ∧
    reduGetMaxWGSize (Device.mk 1024 0 false 0 false false false 1 false) 1 = 0 ∧
    ¬ (1 ≤ reduGetMaxWGSize
        (Device.mk 1024 0 false 0 false false false 1 false) 1) := by
  decide

/-- C3 (amended): for every device with a positive maximum and every
`LocalMemBytesPerWorkItem`, `reduGetMaxWGSize` returns at most the device
maximum; the result is at least `1` whenever no local-memory requirement
is given or the memory-bound quotient is at least `1`; and whenever a
requirement is given and that quotient is `0`, the result is exactly
`0`. -/
theorem reduGetMaxWGSize_bounds (Dev : Device) (L : Nat)
    (hM : 0 < Dev.maxWGSize) :
    reduGetMaxWGSize Dev L ≤ Dev.maxWGSize ∧
    ((L = 0 ∨ 1 ≤ Dev.localMemSize / L) → 1 ≤ reduGetMaxWGSize Dev L) ∧
    ((L ≠ 0 ∧ Dev.localMemSize / L = 0) → reduGetMaxWGSize Dev L = 0) := by
  by_cases hL : L = 0
  · subst hL
    rw [getMaxWGSize_localmem_zero]
    refine ⟨Nat.le_refl _, fun _ => hM, ?_⟩
    rintro ⟨h, _⟩
    exact absurd rfl h
  · rw [reduGetMaxWGSize_pos_localmem Dev L hL]
    refine ⟨?_, ?_, ?_⟩
    · split_ifs with hc
      · exact Nat.le_trans (Nat.div_le_self _ _) (Nat.min_le_right _ _)
      · exact Nat.min_le_right _ _
    · intro hmem
      rcases hmem with h0 | h1
      · exact absurd h0 hL
      · have hA := WGSizePerMemAdjusted_pos Dev.localMemSize L h1
        split_ifs with hc
        · omega
        · omega
    · rintro ⟨_, hq⟩
      have hA0 : WGSizePerMemAdjusted Dev.localMemSize L = 0 := by
        simp [WGSizePerMemAdjusted, hq]
      rw [hA0]
      split_ifs with hc
      · omega
      · omega

/-- Witness for the amended C3 at a concrete device
(`max_work_group_size = 1024`, `local_mem_size = 4096`) and
`LocalMemBytesPerWorkItem = 4`. -/
theorem reduGetMaxWGSize_bounds_witness :
    0 < (Device.mk 1024 4096 false 0 false false false 1 false).maxWGSize ∧
    (reduGetMaxWGSize (Device.mk 1024 4096 false 0 false false false 1 false) 4 ≤
       (Device.mk 1024 4096 false 0 false false false 1 false).maxWGSize ∧
     (((4:Nat) = 0 ∨
        1 ≤ (Device.mk 1024 4096 false 0 false false false 1 false).localMemSize / 4) →
       1 ≤ reduGetMaxWGSize (Device.mk 1024 4096 false 0 false false false 1 false) 4) ∧
     (((4:Nat) ≠ 0 ∧
        (Device.mk 1024 4096 false 0 false false false 1 false).localMemSize / 4 = 0) →
       reduGetMaxWGSize (Device.mk 1024 4096 false 0 false false false 1 false) 4 = 0)) :=
  ⟨by decide,
    reduGetMaxWGSize_bounds (Device.mk 1024 4096 false 0 false false false 1 false)
      4 (by decide)⟩

/-- C4 (counterexample): on a CUDA device with
`max_registers_per_work_group = 65536` and `max_work_group_size = 1024`,
`reduGetMaxWGSize` returns `1024` even though `1024 * 255 = 261120`
exceeds the register budget: the clamp is not applied to the returned
value. -/
theorem reduGetMaxWGSize_regclamp_cex :
    (Device.mk 1024 0 true 65536 false false false 1 false).isCuda = true ∧
    reduGetMaxWGSize (Device.mk 1024 0 true 65536 false false false 1 false) 0 = 1024 ∧
    ¬ (1024 * 255 ≤
        (Device.mk 1024 0 true 65536 false false false 1 false).maxRegsPerWG) := by
  decide

/-- C4 (amended): the register-pressure clamp holds of the internal
candidate `NewWGSize = regClampLoop MaxRegsPerWG WGSize` that the CUDA
branch computes (and then discards): it passes the source's power-of-two
test and fits the register budget at 255 registers per work-item. -/
theorem regClampLoop_spec (MaxRegsPerWG N : Nat) :
    IsPowerOfTwo (regClampLoop MaxRegsPerWG N) = true ∧
    regClampLoop MaxRegsPerWG N * 255 ≤ MaxRegsPerWG := by
  induction N with
  | zero =>
    rw [regClampLoop]
    exact ⟨by decide, Nat.zero_le _⟩
  | succ N ih =>
    rw [regClampLoop]
    by_cases h : regClampCond MaxRegsPerWG (N + 1)
    · rw [if_pos h]
      exact ih
    · rw [if_neg h]
      rw [regClampCond] at h
      simp only [Bool.or_eq_true, decide_eq_true_eq, Bool.not_eq_true',
        not_or] at h
      exact ⟨Bool.not_eq_false _ ▸ h.2, Nat.le_of_not_lt h.1⟩

/-- C6 (counterexample): a CPU device with `max_work_group_size = 8` and
no configured override makes `reduGetPreferredWGSize` return the fixed
default `16`, which is not clamped to the device maximum. -/
theorem reduGetPreferredWGSize_cpu_cex :
    (Device.mk 8 0 false 0 true false false 1 false).isCpu = true ∧
    reduGetPreferredWGSize (Config.mk 0 0 0)
        (some (Device.mk 8 0 false 0 true false false 1 false)) 0 = 16 ∧
    ¬ (reduGetPreferredWGSize (Config.mk 0 0 0)
        (some (Device.mk 8 0 false 0 true false false 1 false)) 0 ≤
       (Device.mk 8 0 false 0 true false false 1 false).maxWGSize) := by
  decide

/-- C6 (amended): on a CPU device `reduGetPreferredWGSize` returns `16`
when no override is configured (without clamping to the device maximum),
and `min(override, max_work_group_size)` when one is: the clamp applies
only in the override case. -/
theorem reduGetPreferredWGSize_cpu (Cfg : Config) (Dev : Device)
    (LocalMemBytesPerWorkItem : Nat) (h : Dev.isCpu = true) :
    reduGetPreferredWGSize Cfg (some Dev) LocalMemBytesPerWorkItem =
      if Cfg.cpuPref = 0 then 16 else min Cfg.cpuPref Dev.maxWGSize := by
  simp [reduGetPreferredWGSize, h]

/-- Witness for the amended C6 with a configured override of `20` on a
CPU device with maximum `512`. -/
theorem reduGetPreferredWGSize_cpu_witness :
    (Device.mk 512 0 false 0 true false false 1 false).isCpu = true ∧
    reduGetPreferredWGSize (Config.mk 20 0 0)
        (some (Device.mk 512 0 false 0 true false false 1 false)) 0 =
      if (Config.mk 20 0 0).cpuPref = 0 then 16
      else min (Config.mk 20 0 0).cpuPref
        (Device.mk 512 0 false 0 true false false 1 false).maxWGSize :=
  ⟨rfl, reduGetPreferredWGSize_cpu (Config.mk 20 0 0)
    (Device.mk 512 0 false 0 true false false 1 false) 0 rfl⟩

/-- C8 (counterexample): with `local_mem_size = 0` and
`LocalMemBytesPerWorkItem = 1` the memory-bound candidate `0 / 1 = 0` is
not a power of two, yet the source leaves it undecremented (its bit test
classifies `0` as a power of two), so "decremented by exactly 1 iff not a
power of two" fails. -/
theorem WGSizePerMemAdjusted_cex :
    ¬ ((WGSizePerMemAdjusted 0 1 + 1 = 0 / 1) ↔
        ¬ ∃ k, (0:Nat) / 1 = 2 ^ k) := by
  intro h
  have h0 : ¬ ∃ k, (0:Nat) / 1 = 2 ^ k := by
    rintro ⟨k, hk⟩
    rw [Nat.zero_div] at hk
    exact absurd hk.symm (by positivity : (0:ℕ) < 2 ^ k).ne'
  exact absurd (h.mpr h0) (by decide)

/-- C8 (amended): for a positive per-work-item requirement, the
memory-bound candidate is decremented by exactly `1` iff it is positive
and not a power of two (a zero candidate is left unchanged because the
bit test classifies `0` as a power of two), and the adjusted value -- not
the raw quotient -- is what `reduGetMaxWGSize` feeds into the `min` with
the device maximum. -/
theorem WGSizePerMemAdjusted_spec (Dev : Device) (L : Nat) (hL : 0 < L) :
    (WGSizePerMemAdjusted Dev.localMemSize L + 1 = Dev.localMemSize / L ↔
      (1 ≤ Dev.localMemSize / L ∧ ¬ ∃ k, Dev.localMemSize / L = 2 ^ k)) ∧
    reduGetMaxWGSize Dev L =
      (if 4 ≤ min (WGSizePerMemAdjusted Dev.localMemSize L) Dev.maxWGSize ∧
          WGSizePerMemAdjusted Dev.localMemSize L < Dev.maxWGSize * 2 then
        min (WGSizePerMemAdjusted Dev.localMemSize L) Dev.maxWGSize / 2
      else min (WGSizePerMemAdjusted Dev.localMemSize L) Dev.maxWGSize) := by
  constructor
  · unfold WGSizePerMemAdjusted
    by_cases h : Dev.localMemSize / L &&& (Dev.localMemSize / L - 1) ≠ 0
    · rw [if_pos h]
      have hpos : 0 < Dev.localMemSize / L := by
        rcases Nat.eq_zero_or_pos (Dev.localMemSize / L) with h0 | hp
        · rw [h0] at h
          exact absurd (by decide) h
        · exact hp
      constructor
      · intro _
        refine ⟨hpos, fun hex => ?_⟩
        exact h ((land_pred_eq_zero_iff (Dev.localMemSize / L) hpos).mpr hex)
      · intro _
        omega
    · rw [if_neg h]
      push_neg at h
      constructor
      · intro habs
        omega
      · rintro ⟨hpos, hnp⟩
        exact absurd ((land_pred_eq_zero_iff (Dev.localMemSize / L) hpos).mp h) hnp
  · exact reduGetMaxWGSize_pos_localmem Dev L (Nat.pos_iff_ne_zero.mp hL)

/-- Witness for the amended C8 on `devMem48` (`local_mem_size = 48`) with
one byte per work-item: the candidate `48` is not a power of two and is
decremented to `47` before the `min`. -/
theorem WGSizePerMemAdjusted_spec_witness :
    0 < 1 ∧
    ((WGSizePerMemAdjusted devMem48.localMemSize 1 + 1 =
        devMem48.localMemSize / 1 ↔
      (1 ≤ devMem48.localMemSize / 1 ∧
        ¬ ∃ k, devMem48.localMemSize / 1 = 2 ^ k)) ∧
    reduGetMaxWGSize devMem48 1 =
      (if 4 ≤ min (WGSizePerMemAdjusted devMem48.localMemSize 1) devMem48.maxWGSize ∧
          WGSizePerMemAdjusted devMem48.localMemSize 1 < devMem48.maxWGSize * 2 then
        min (WGSizePerMemAdjusted devMem48.localMemSize 1) devMem48.maxWGSize / 2
      else min (WGSizePerMemAdjusted devMem48.localMemSize 1) devMem48.maxWGSize)) :=
  ⟨by decide, WGSizePerMemAdjusted_spec devMem48 1 (by decide)⟩

/-- C10: the register-workaround while loop terminates on every input: a
fuel budget equal to the starting candidate always suffices (each
iteration decrements the candidate, and at `0` the condition is false
because `IsPowerOfTwo 0 = true` and `0 * 255` exceeds no budget), and the
fueled run agrees with the total recursive model of the loop. -/
theorem regClampLoop_terminates :
    IsPowerOfTwo 0 = true ∧
    ∀ (MaxRegsPerWG N : Nat),
      regClampLoopFuel MaxRegsPerWG N N = some (regClampLoop MaxRegsPerWG N) :=
  ⟨by decide, fun MaxRegsPerWG N =>
    regClampLoopFuel_of_le MaxRegsPerWG N N (Nat.le_refl N)⟩

end ReduPlanner
